import Mathlib

/-!
# Verification of the `auth` subsystem of github.com/albeebe/service

This file gives a shallow embedding, in Lean 4, of the authentication
subsystem of the repository (package `pkg/auth` plus the endpoint
registration middleware of the `service` package), and proves the spec's
claims about it.

Conventions of the embedding:
* Go `time.Time` values are modelled as `Int` (seconds); `t1.After(t2)`
  becomes `t1 > t2`.
* Go `error` values are modelled as `Option String` (`none` = nil error)
  or `Except String` when a function's only results are error/success.
* Go maps (`map[string]*Key`) are modelled as association lists with
  last-write-wins insertion (`mapInsert`).
* Go channels, tickers and goroutines are modelled as explicit state
  (see `ChanState`, `StartState`, `SFState`) with sequentialised steps.
-/

namespace ServiceAuth

/-!
## Go string primitives

The `strings` package functions used by the subsystem, embedded over the
character list of a Lean `String` so that they evaluate by `decide`.
`goTrimSpace` trims the ASCII whitespace of `Char.isWhitespace`, which
agrees with Go's `strings.TrimSpace` on ASCII input.
-/

/-- Go `strings.ToLower`. -/
def goToLower (s : String) : String := ⟨s.data.map Char.toLower⟩

/-- Go `strings.HasPrefix s pre`. -/
def goHasPrefixOf (s pre : String) : Bool := pre.data.isPrefixOf s.data

/-- Slicing `s[n:]` on a Go string (byte slicing; equals character dropping on the
ASCII prefixes it is applied to). -/
def goDrop (s : String) (n : Nat) : String := ⟨s.data.drop n⟩

/-- Go `strings.TrimSpace`. -/
def goTrimSpace (s : String) : String :=
  ⟨((s.data.dropWhile Char.isWhitespace).reverse.dropWhile
      Char.isWhitespace).reverse⟩

/-- The `Key` struct of `pkg/auth/structs.go`: a signature-verification key.
`Kid`/`Alg`/`Pem` are strings, `Iat`/`Exp` are Unix timestamps (`int64`,
modelled as `Int`). -/
structure Key where
  Kid : String
  Iat : Int
  Exp : Int
  Alg : String
  Pem : String
deriving Repr, DecidableEq

/-- Method `Key.Validate` of `pkg/auth/structs.go`: returns the first validation
error message, or `none` when the key is well formed.  Mirrors the Go
method, which checks the five fields in order and returns
`fmt.Errorf("...")` for the first empty/zero one. -/
def Key.Validate (k : Key) : Option String :=
  if k.Kid = "" then some "kid is empty"
  else if k.Iat = 0 then some "iat is zero"
  else if k.Exp = 0 then some "exp is zero"
  else if k.Alg = "" then some "alg is empty"
  else if k.Pem = "" then some "pem is empty"
  else none

/-- The part of the `Auth` struct state that the key cache consists of:
the `keys` map and the `nextKeyRefresh` timestamp
(`pkg/auth/structs.go`). -/
structure KeyState where
  keys : List (String × Key)
  nextKeyRefresh : Int
deriving Repr, DecidableEq

/-- Assignment `m[kid] = k` on a Go map modelled as an association list:
replaces the binding for `kid` if present, otherwise appends it. -/
def mapInsert (m : List (String × Key)) (kid : String) (k : Key) :
    List (String × Key) :=
  match m with
  | [] => [(kid, k)]
  | (kid', k') :: rest =>
      if kid' = kid then (kid, k) :: rest
      else (kid', k') :: mapInsert rest kid k

/-- Function `keyWithID` of `pkg/auth/internal.go`: a plain lookup of the `keys`
map (the `RLock`/`RUnlock` pair brackets exactly this read and is
invisible to a sequential reader). -/
def keyWithID (s : KeyState) (id : String) : Option Key :=
  s.keys.lookup id

/-- The key-validating map-building loop of `refreshKeys`
(`pkg/auth/internal.go`): walks the fetched keys in order, rejecting the
whole batch on the first key whose `Validate` fails, and otherwise
inserting each key into the map under its `Kid`. -/
def buildKeyMap (acc : List (String × Key)) :
    List Key → Except String (List (String × Key))
  | [] => .ok acc
  | k :: rest =>
      match k.Validate with
      | some e => .error ("key is invalid: " ++ e)
      | none => buildKeyMap (mapInsert acc k.Kid k) rest

/-- Function `refreshKeys` of `pkg/auth/internal.go`.  The call to
`authProvider.RefreshKeys()` is the function's only input and is passed
in as `providerResult` (`.error e` when the provider fails, `.ok (keys,
nextRefresh)` otherwise).  Returns the Go function's error result paired
with the key-cache state after the call. -/
def refreshKeys (providerResult : Except String (List Key × Int))
    (s : KeyState) : Except String Unit × KeyState :=
  match providerResult with
  | .error e => (.error ("authProvider failed to refresh keys: " ++ e), s)
  | .ok (keys, nextRefresh) =>
      match buildKeyMap [] keys with
      | .error e => (.error e, s)
      | .ok keyMap => (.ok (), { keys := keyMap, nextKeyRefresh := nextRefresh })

/-- If the validating loop succeeds then every key of the batch passed
`Key.Validate`. -/
theorem buildKeyMap_ok_all_valid (ks : List Key) (acc m : List (String × Key))
    (h : buildKeyMap acc ks = .ok m) : ∀ k ∈ ks, k.Validate = none := by
  induction ks generalizing acc with
  | nil => intro k hk; exact absurd hk (List.not_mem_nil k)
  | cons k rest ih =>
      intro k' hk'
      rcases List.mem_cons.mp hk' with rfl | hmem
      · cases hv : k'.Validate with
        | none => rfl
        | some e => simp [buildKeyMap, hv] at h
      · cases hv : k.Validate with
        | none => exact ih (mapInsert acc k.Kid k) (by simpa [buildKeyMap, hv] using h) k' hmem
        | some e => simp [buildKeyMap, hv] at h

/-- If some key of the batch fails `Key.Validate`, the validating loop
returns an error. -/
theorem buildKeyMap_error_of_invalid (ks : List Key) (acc : List (String × Key))
    (h : ∃ k ∈ ks, k.Validate ≠ none) : ∃ e, buildKeyMap acc ks = .error e := by
  by_contra hno
  push_neg at hno
  rcases hok : buildKeyMap acc ks with e | m
  · exact hno e hok
  · rcases h with ⟨k, hk, hv⟩
    exact hv (buildKeyMap_ok_all_valid ks acc m hok k hk)

/-- If every key of the batch passes `Key.Validate`, the validating loop
succeeds. -/
theorem buildKeyMap_ok_of_all_valid (ks : List Key) (acc : List (String × Key))
    (h : ∀ k ∈ ks, k.Validate = none) : ∃ m, buildKeyMap acc ks = .ok m := by
  induction ks generalizing acc with
  | nil => exact ⟨acc, rfl⟩
  | cons x xs ih =>
      have hx : x.Validate = none := h x (List.mem_cons_self x xs)
      rcases ih (mapInsert acc x.Kid x)
          (fun k' hk' => h k' (List.mem_cons_of_mem x hk')) with ⟨m, hm⟩
      exact ⟨m, by simp [buildKeyMap, hx, hm]⟩

/-- C3: `refreshKeys` is atomic on failure: when the provider call fails, or
any key of the returned batch fails `Key.Validate`, it returns an error and
leaves the key map and the next-key-refresh timestamp exactly as they were;
only on a fully valid batch are the whole map and the timestamp replaced
together. -/
theorem refreshKeys_atomic (pr : Except String (List Key × Int)) (s : KeyState) :
    (((∃ e, pr = .error e) ∨
        (∃ ks next, pr = .ok (ks, next) ∧ ∃ k ∈ ks, k.Validate ≠ none)) →
      (refreshKeys pr s).2 = s ∧ ∃ e, (refreshKeys pr s).1 = .error e) ∧
    (∀ ks next, pr = .ok (ks, next) → (∀ k ∈ ks, k.Validate = none) →
      ∃ m, buildKeyMap [] ks = .ok m ∧
        refreshKeys pr s = (.ok (), ⟨m, next⟩)) := by
  constructor
  · rintro (⟨e, rfl⟩ | ⟨ks, next, rfl, hbad⟩)
    · exact ⟨rfl, _, rfl⟩
    · rcases buildKeyMap_error_of_invalid ks [] hbad with ⟨e, he⟩
      exact ⟨by simp [refreshKeys, he], e, by simp [refreshKeys, he]⟩
  · rintro ks next rfl hval
    rcases buildKeyMap_ok_of_all_valid ks [] hval with ⟨m, hm⟩
    exact ⟨m, hm, by simp [refreshKeys, hm]⟩

/-- Witness for `refreshKeys_atomic`: a concrete failing provider call leaves
a concrete cache untouched, and a concrete valid batch replaces map and
timestamp together. -/
theorem refreshKeys_atomic_witness :
    (refreshKeys (.error "boom") ⟨[("a", ⟨"a", 1, 2, "RS256", "P"⟩)], 50⟩).2 =
        ⟨[("a", ⟨"a", 1, 2, "RS256", "P"⟩)], 50⟩ ∧
      (∃ e, (refreshKeys (.error "boom")
        ⟨[("a", ⟨"a", 1, 2, "RS256", "P"⟩)], 50⟩).1 = .error e) ∧
      ∃ m, buildKeyMap [] [⟨"b", 3, 4, "RS256", "Q"⟩] = .ok m ∧
        refreshKeys (.ok ([⟨"b", 3, 4, "RS256", "Q"⟩], 99))
          ⟨[("a", ⟨"a", 1, 2, "RS256", "P"⟩)], 50⟩ = (.ok (), ⟨m, 99⟩) := by
  refine ⟨?_, ?_, ?_⟩
  · exact ((refreshKeys_atomic (.error "boom")
      ⟨[("a", ⟨"a", 1, 2, "RS256", "P"⟩)], 50⟩).1 (.inl ⟨"boom", rfl⟩)).1
  · exact ((refreshKeys_atomic (.error "boom")
      ⟨[("a", ⟨"a", 1, 2, "RS256", "P"⟩)], 50⟩).1 (.inl ⟨"boom", rfl⟩)).2
  · exact (refreshKeys_atomic (.ok ([⟨"b", 3, 4, "RS256", "Q"⟩], 99))
      ⟨[("a", ⟨"a", 1, 2, "RS256", "P"⟩)], 50⟩).2 [⟨"b", 3, 4, "RS256", "Q"⟩] 99 rfl
      (by intro k hk; simp at hk; subst hk; decide)

/-!
## The await-key protocol (`awaitKey`, `pkg/auth/internal.go`)

`awaitKey` is a polling loop over real time: it checks the key cache, and
when the cache's `nextKeyRefresh` timestamp has passed (a refresh should
be in progress) it re-checks once per second, for up to 5 seconds
(`maxWaitDuration`), before giving up.  The embedding makes the cache as
seen at each one-second poll instant explicit as a schedule
`σ : Nat → KeyState` (`σ i` is the cache state at `start + i` seconds)
and replaces the ticker/timeout pair by a fuel counter: the poll at
instant `i` still runs the loop body (key lookup, refresh-window check)
and the 5-second timeout fires when the fuel is exhausted.
-/

/-- The loop body of `awaitKey`, iterated over poll instants.  Returns the
looked-up key, the `found` flag, and the poll instant (= seconds waited) at
which the loop returned.  `fuel` is the number of ticker periods left
before the 5-second timeout; at the timeout instant (`fuel = 0`) the loop
body runs one last time and then the timeout case of the `select` returns
`(nil, false)` — at that instant the refresh-window check is irrelevant,
since both its branches return `(nil, false)` at instant `i`. -/
def awaitKeyGo (kid : String) (σ : Nat → KeyState) (start : Int) :
    Nat → Nat → Option Key × Bool × Nat
  | 0, i =>
      match keyWithID (σ i) kid with
      | some k => (some k, true, i)
      | none => (none, false, i)
  | fuel + 1, i =>
      match keyWithID (σ i) kid with
      | some k => (some k, true, i)
      | none =>
          if start + (i : Int) > (σ i).nextKeyRefresh then
            awaitKeyGo kid σ start fuel (i + 1)
          else (none, false, i)

/-- Function `awaitKey` of `pkg/auth/internal.go`: the polling loop entered with the
full 5-second budget (`maxWaitDuration = 5 * time.Second`, ticker period
one second). -/
def awaitKey (kid : String) (σ : Nat → KeyState) (start : Int) :
    Option Key × Bool × Nat :=
  awaitKeyGo kid σ start 5 0

/-- Helper: the loop with all of its budget exhausted on misses returns
not-found at instant `i + fuel`. -/
theorem awaitKeyGo_miss (kid : String) (σ : Nat → KeyState) (start : Int)
    (fuel i : Nat)
    (habsent : ∀ d : Nat, d ≤ fuel → keyWithID (σ (i + d)) kid = none)
    (hdue : ∀ d : Nat, d ≤ fuel →
      start + ((i + d : Nat) : Int) > (σ (i + d)).nextKeyRefresh) :
    awaitKeyGo kid σ start fuel i = (none, false, i + fuel) := by
  induction fuel generalizing i with
  | zero =>
      rw [awaitKeyGo]
      have h0 := habsent 0 (le_refl 0)
      simp only [Nat.add_zero] at h0 ⊢
      rw [h0]
  | succ n ih =>
      rw [awaitKeyGo]
      have h0 := habsent 0 (Nat.zero_le _)
      have h1 := hdue 0 (Nat.zero_le _)
      simp only [Nat.add_zero] at h0 h1
      rw [h0]
      simp only [h1, if_true]
      have := ih (i + 1)
        (fun d hd => by
          have := habsent (d + 1) (Nat.succ_le_succ hd)
          simpa [Nat.add_assoc, Nat.add_comm 1 d] using this)
        (fun d hd => by
          have := hdue (d + 1) (Nat.succ_le_succ hd)
          simpa [Nat.add_assoc, Nat.add_comm 1 d] using this)
      rw [this]
      simp [Nat.add_assoc, Nat.add_comm 1 n]

/-- Helper: if the key shows up at poll instant `i + j` within the budget,
having been missing (with the refresh window open) at the earlier
instants, the loop returns it then. -/
theorem awaitKeyGo_hit (kid : String) (σ : Nat → KeyState) (start : Int)
    (k : Key) (j : Nat) :
    ∀ (fuel i : Nat), j ≤ fuel →
    (∀ d : Nat, d < j → keyWithID (σ (i + d)) kid = none) →
    (∀ d : Nat, d < j →
      start + ((i + d : Nat) : Int) > (σ (i + d)).nextKeyRefresh) →
    keyWithID (σ (i + j)) kid = some k →
    awaitKeyGo kid σ start fuel i = (some k, true, i + j) := by
  induction j with
  | zero =>
      intro fuel i _ _ _ hfound
      simp only [Nat.add_zero] at hfound ⊢
      rcases fuel with _ | fuel' <;> · rw [awaitKeyGo]; rw [hfound]
  | succ n ih =>
      intro fuel i hle habsent hdue hfound
      rcases fuel with _ | fuel'
      · exact absurd hle (by omega)
      rw [awaitKeyGo]
      have h0 := habsent 0 (Nat.succ_pos n)
      have h1 := hdue 0 (Nat.succ_pos n)
      simp only [Nat.add_zero] at h0 h1
      rw [h0]
      simp only [h1, if_true]
      have := ih fuel' (i + 1) (Nat.le_of_succ_le_succ hle)
        (fun d hd => by
          have := habsent (d + 1) (Nat.succ_lt_succ hd)
          simpa [Nat.add_assoc, Nat.add_comm 1 d] using this)
        (fun d hd => by
          have := hdue (d + 1) (Nat.succ_lt_succ hd)
          simpa [Nat.add_assoc, Nat.add_comm 1 d] using this)
        (by simpa [Nat.add_assoc, Nat.add_comm 1 n] using hfound)
      rw [this]
      simp [Nat.add_assoc, Nat.add_comm 1 n]

/-- C2: the await-key protocol.  For a key id absent from the cache at call
time: (a) fail fast — if the current time is not after the stored
next-key-refresh timestamp, `awaitKey` returns `(nil, false)` at poll
instant 0, without any polling wait; (b) if the refresh window has arrived
and stays arrived over the 5-second budget, the loop polls once per
second: it returns the key with `true` at the first poll instant `j` where
the lookup succeeds, and returns `(nil, false)` 5 seconds in when the key
never appears. -/
theorem awaitKey_spec (kid : String) (σ : Nat → KeyState) (start : Int)
    (habsent0 : keyWithID (σ 0) kid = none) :
    (¬ start > (σ 0).nextKeyRefresh → awaitKey kid σ start = (none, false, 0)) ∧
    ((∀ i : Nat, i ≤ 5 → start + (i : Int) > (σ i).nextKeyRefresh) →
      ((∀ i : Nat, i ≤ 5 → keyWithID (σ i) kid = none) →
        awaitKey kid σ start = (none, false, 5)) ∧
      (∀ (j : Nat) (k : Key), j ≤ 5 →
        (∀ i : Nat, i < j → keyWithID (σ i) kid = none) →
        keyWithID (σ j) kid = some k →
        awaitKey kid σ start = (some k, true, j))) := by
  constructor
  · intro hnotdue
    rw [awaitKey, awaitKeyGo, habsent0]
    simp only [Int.natCast_zero, Int.add_zero]
    simp [hnotdue]
  · intro hdue
    constructor
    · intro habsent
      have := awaitKeyGo_miss kid σ start 5 0
        (fun d hd => by simpa using habsent d hd)
        (fun d hd => by simpa using hdue d hd)
      simpa [awaitKey] using this
    · intro j k hj habsent hfound
      have := awaitKeyGo_hit kid σ start k j 5 0 hj
        (fun d hd => by simpa using habsent d hd)
        (fun d hd => by simpa using hdue d (le_of_lt (lt_of_lt_of_le hd hj)))
        (by simpa using hfound)
      simpa [awaitKey] using this

/-- Witness for `awaitKey_spec`: a cache with refresh due at time 10,
queried at time 0, fails fast; a cache whose refresh window is open (due
at -10) delivers the key when it appears at poll instant 2, and times out
at 5 seconds when it never appears. -/
theorem awaitKey_spec_witness :
    awaitKey "k1" (fun _ => ⟨[], 10⟩) 0 = (none, false, 0) ∧
    awaitKey "k1"
      (fun i => if i < 2 then ⟨[], -10⟩ else ⟨[("k1", ⟨"k1", 1, 2, "RS256", "P"⟩)], -10⟩)
      0 = (some ⟨"k1", 1, 2, "RS256", "P"⟩, true, 2) ∧
    awaitKey "k1" (fun _ => ⟨[], -10⟩) 0 = (none, false, 5) := by
  refine ⟨?_, ?_, ?_⟩
  · exact (awaitKey_spec "k1" (fun _ => ⟨[], 10⟩) 0 (by decide)).1 (by decide)
  · exact ((awaitKey_spec "k1"
      (fun i => if i < 2 then ⟨[], -10⟩ else ⟨[("k1", ⟨"k1", 1, 2, "RS256", "P"⟩)], -10⟩)
      0 (by decide)).2 (by intro i _; by_cases h : i < 2 <;> simp [h] <;> omega)).2 2
      ⟨"k1", 1, 2, "RS256", "P"⟩ (by norm_num)
      (by intro i hi; interval_cases i <;> decide) (by decide)
  · exact ((awaitKey_spec "k1" (fun _ => ⟨[], -10⟩) 0 (by decide)).2
      (by intro i _; simp [KeyState.nextKeyRefresh]; omega)).1
      (by intro i _; decide)

/-!
## The JWT validator (`validateJWT`, `pkg/auth/internal.go`)

`validateJWT` drives `jwt.Parse` of the `github.com/golang-jwt/jwt/v5`
dependency with a keyfunc closure, then maps the resulting error (via
`errors.Is` against the library's sentinel errors and the package's own
`errorAlg*`/`errorKid*`/`errorKeyNotFound` sentinels) to a client-safe
reason or an internal error.

The `jwt/v5` library itself is not part of this repository; its
orchestration is embedded from its published v5 sources:
* `ParseUnverified` splits/decodes the compact serialization (any failure
  is `ErrTokenMalformed`) and then resolves the signing method *before
  any keyfunc runs*: `token.Header["alg"].(string)` must succeed and
  `GetSigningMethod(alg)` must return a registered method, else parsing
  stops with an `ErrTokenUnverifiable`-class error;
* `ParseWithClaims` then calls the keyfunc; a keyfunc error is wrapped in
  an `ErrTokenUnverifiable` joined error through which `errors.Is` still
  reaches the keyfunc's sentinel;
* signature verification failure yields `ErrTokenSignatureInvalid`, and
  claim validation yields `ErrTokenExpired`/`ErrTokenNotValidYet`/
  `ErrTokenUsedBeforeIssued`; on success `token.Valid = true`.

The purely syntactic part (base64/JSON decoding of the token string, and
the later signature/claims verification outcome for this token) is
abstracted as the `Decoded` input, and PEM decoding of the key material
(`jwt.ParseRSAPublicKeyFromPEM`) as a `pemParse` oracle.
-/

/-- A JSON header value as seen through Go's `.(string)` type assertion:
either a string or some non-string JSON value. -/
inductive HVal where
  | str (s : String)
  | nonstr
deriving Repr, DecidableEq

/-- A decoded JWT header: field name to value. -/
abbrev JwtHeader := List (String × HVal)

/-- Access `token.Header[k].(string)`: `some s` exactly when field `k` is present
with a string value (possibly empty). -/
def headerString (h : JwtHeader) (k : String) : Option String :=
  match h.lookup k with
  | some (.str s) => some s
  | _ => none

/-- The outcome of signature verification and standard-claims validation
for a structurally well-formed token, as produced by the `jwt/v5` parser
once the keyfunc has supplied a key. -/
inductive PostVerify where
  | sigInvalid
  | expired
  | notValidYet
  | usedBeforeIssued
  | valid
deriving Repr, DecidableEq

/-- The token string after the library's syntactic decoding: either
structurally malformed (wrong segment count, bad base64, bad JSON), or a
token with its decoded header and its verification outcome. -/
inductive Decoded where
  | malformed
  | token (header : JwtHeader) (post : PostVerify)
deriving Repr, DecidableEq

/-- The error classes that `validateJWT`'s switch distinguishes via
`errors.Is`: the five `jwt/v5` sentinel errors, the four package-level
sentinels of `pkg/auth/internal.go`, and `internal` for any other error
(which falls through to the switch's default case). -/
inductive JwtErr where
  | expired
  | malformed
  | notValidYet
  | signatureInvalid
  | usedBeforeIssued
  | algInvalid
  | algMissing
  | kidMissing
  | keyNotFound
  | internal (msg : String)
deriving Repr, DecidableEq

/-- The signing-method names registered by `jwt/v5`'s `init` functions:
`GetSigningMethod` succeeds exactly on these. -/
def registeredAlgs : List String :=
  ["HS256", "HS384", "HS512", "RS256", "RS384", "RS512",
   "ES256", "ES384", "ES512", "PS256", "PS384", "PS512", "EdDSA", "none"]

/-- Function `jwt.GetSigningMethod`: `some alg` when a method is registered under
`alg`, else `none`. -/
def getSigningMethod (alg : String) : Option String :=
  if alg ∈ registeredAlgs then some alg else none

/-- The keyfunc closure passed to `jwt.Parse` by `validateJWT`
(`pkg/auth/internal.go`): requires an `alg` and a `kid` header, resolves
the key via `awaitKey`, requires a case-insensitive algorithm match, and
parses the key's PEM material (the `pemParse` oracle stands for
`jwt.ParseRSAPublicKeyFromPEM`; its success value is an opaque key id). -/
def keyfunc (σ : Nat → KeyState) (start : Int) (pemParse : String → Option Nat)
    (header : JwtHeader) : Except JwtErr Nat :=
  match headerString header "alg" with
  | none => .error .algMissing
  | some alg =>
      if alg = "" then .error .algMissing
      else
        match headerString header "kid" with
        | none => .error .kidMissing
        | some kid =>
            if kid = "" then .error .kidMissing
            else
              match (awaitKey kid σ start).1 with
              | none => .error .keyNotFound
              | some key =>
                  if goToLower key.Alg ≠ goToLower alg then .error .algInvalid
                  else
                    match pemParse key.Pem with
                    | none => .error (.internal
                        "failed to parse RSA public key from key.pem")
                    | some pk => .ok pk

/-- Function `jwt.Parse` of `jwt/v5` driven by the keyfunc above: syntactic
decoding, signing-method resolution (before the keyfunc), keyfunc, then
signature and claims verification. -/
def jwtParse (σ : Nat → KeyState) (start : Int) (pemParse : String → Option Nat)
    (d : Decoded) : Except JwtErr Unit :=
  match d with
  | .malformed => .error .malformed
  | .token header post =>
      match headerString header "alg" with
      | none => .error (.internal "signing method (alg) is unspecified")
      | some alg =>
          match getSigningMethod alg with
          | none => .error (.internal "signing method (alg) is unavailable")
          | some _ =>
              match keyfunc σ start pemParse header with
              | .error e => .error e
              | .ok _ =>
                  match post with
                  | .sigInvalid => .error .signatureInvalid
                  | .expired => .error .expired
                  | .notValidYet => .error .notValidYet
                  | .usedBeforeIssued => .error .usedBeforeIssued
                  | .valid => .ok ()

/-- Function `validateJWT` of `pkg/auth/internal.go`: runs the parser and maps its
error through the `errors.Is` switch to `(isValid, reason, err)`.
The token string's syntactic decoding is the `Decoded` argument. -/
def validateJWT (σ : Nat → KeyState) (start : Int)
    (pemParse : String → Option Nat) (d : Decoded) :
    Bool × String × Option String :=
  match jwtParse σ start pemParse d with
  | .error .expired => (false, "token is expired", none)
  | .error .malformed => (false, "token is malformed", none)
  | .error .notValidYet => (false, "token is not valid yet", none)
  | .error .signatureInvalid => (false, "token signature is invalid", none)
  | .error .usedBeforeIssued => (false, "token used before being issued", none)
  | .error .algInvalid => (false, "value for 'alg' header is invalid", none)
  | .error .algMissing => (false, "token header is missing an 'alg' value", none)
  | .error .kidMissing => (false, "token header is missing a 'kid' value", none)
  | .error .keyNotFound => (false, "key not found", none)
  | .error (.internal msg) => (false, "", some msg)
  | .ok () => (true, "", none)

/-!
## The Authenticate facade (`pkg/auth/auth.go`)
-/

/-- An inbound HTTP request, reduced to the one header the facade reads:
`authorization` is `r.Header.Get("Authorization")`, which is `""` when the
header is absent. -/
structure HTTPRequest where
  authorization : String
deriving Repr, DecidableEq

/-- Function `Authenticate` of `pkg/auth/auth.go`.  A nil request is modelled as
`none`.  `decode` is the syntactic decoding of a token string (the
`Decoded` abstraction of the jwt library's base64/JSON layer). -/
def Authenticate (decode : String → Decoded) (σ : Nat → KeyState)
    (start : Int) (pemParse : String → Option Nat) (r : Option HTTPRequest) :
    Bool × String × Option String :=
  match r with
  | none => (false, "", some "request is nil")
  | some req =>
      let authHeader := req.authorization
      if authHeader = "" then (false, "missing authorization header", none)
      else if goHasPrefixOf (goToLower authHeader) "bearer " = false then
        (false, "malformed authorization header", none)
      else
        let token := goTrimSpace (goDrop authHeader 7)
        if token = "" then (false, "missing bearer token", none)
        else
          match validateJWT σ start pemParse (decode token) with
          | (isValid, reason, none) => (isValid, reason, none)
          | (_, _, some e) => (false, "", some ("failed to validate jwt: " ++ e))

/-- Function `Authorize` of `pkg/auth/auth.go`: a nil-request guard, then pure
delegation to the provider's `AuthorizeRequest`.  The requirement type is
a parameter: `src/pkg/auth/auth.go` passes a `permission string`, while
the current generation of the package (whose `Authorize` body is not in
`src/`, but is documented in the package README and the spec as the same
nil-guard plus delegation) passes an `AuthRequirements` value. -/
def Authorize {α : Type} (provider : HTTPRequest → α → Bool × Option String)
    (r : Option HTTPRequest) (requirement : α) : Bool × Option String :=
  match r with
  | none => (false, some "request is nil")
  | some req => provider req requirement

/-- Fixtures: a cached RS256 key `k1`, a constant cache schedule holding
it, and an always-succeeding PEM oracle. -/
def demoKeyRS : Key := ⟨"k1", 1, 9999, "RS256", "PEM"⟩

def demoSchedule : Nat → KeyState := fun _ => ⟨[("k1", demoKeyRS)], 1000⟩

def demoPem : String → Option Nat := fun _ => some 1

/-- A decoder that sees every token string as the header
`{alg: "HS256", kid: "k1"}` with a verifiable body. -/
def demoDecodeHS : String → Decoded :=
  fun _ => .token [("alg", .str "HS256"), ("kid", .str "k1")] .valid

/-- C1 counterexample: with cached key `k1` of `Alg = "RS256"` and a token
declaring `alg: "HS256"`, `Authenticate` returns the reason
`"value for 'alg' header is invalid"` — not the claim's
`"value for algorithm header is invalid"`. -/
theorem Authenticate_alg_mismatch_counterexample :
    Authenticate demoDecodeHS demoSchedule 0 demoPem (some ⟨"Bearer tok"⟩) =
      (false, "value for 'alg' header is invalid", none) ∧
    (false, "value for 'alg' header is invalid", (none : Option String)) ≠
      (false, "value for algorithm header is invalid", none) := by
  exact ⟨by decide, by decide⟩

/-- C1 (amended): for a token whose declared algorithm differs
case-insensitively from the `Alg` of the key its `kid` resolves to, the
result splits on whether the declared algorithm names a registered
signing method.  When it does (as in the claim's own HS256-vs-RS256
scenario), the keyfunc's comparison runs and `validateJWT` — and
`Authenticate` on a request bearing that token — returns
`(false, "value for 'alg' header is invalid", nil)`.  When it does not
(an unregistered name such as `"foo"`, a lowercase variant such as
`"hs256"`, or the empty string), the jwt/v5 parser rejects the token
before the keyfunc ever compares algorithms, and both return
`(false, "", non-nil error)` instead. -/
theorem Authenticate_alg_mismatch (decode : String → Decoded)
    (σ : Nat → KeyState) (start : Int) (pemParse : String → Option Nat)
    (header : JwtHeader) (post : PostVerify) (alg kid : String) (key : Key)
    (authHeader : String)
    (halg : headerString header "alg" = some alg)
    (hkid : headerString header "kid" = some kid)
    (hkidne : kid ≠ "")
    (hkey : (awaitKey kid σ start).1 = some key)
    (hmismatch : goToLower key.Alg ≠ goToLower alg)
    (hpre : goHasPrefixOf (goToLower authHeader) "bearer " = true)
    (htokne : goTrimSpace (goDrop authHeader 7) ≠ "")
    (hdec : decode (goTrimSpace (goDrop authHeader 7)) = .token header post) :
    (alg ∈ registeredAlgs →
      validateJWT σ start pemParse (.token header post) =
        (false, "value for 'alg' header is invalid", none) ∧
      Authenticate decode σ start pemParse (some ⟨authHeader⟩) =
        (false, "value for 'alg' header is invalid", none)) ∧
    (alg ∉ registeredAlgs →
      validateJWT σ start pemParse (.token header post) =
        (false, "", some "signing method (alg) is unavailable") ∧
      Authenticate decode σ start pemParse (some ⟨authHeader⟩) =
        (false, "",
          some ("failed to validate jwt: " ++
            "signing method (alg) is unavailable"))) := by
  have hne : authHeader ≠ "" := by
    rintro rfl
    exact absurd hpre (by decide)
  constructor
  · intro hreg
    have halgne : alg ≠ "" := by
      rintro rfl
      exact absurd hreg (by decide)
    have hv : validateJWT σ start pemParse (.token header post) =
        (false, "value for 'alg' header is invalid", none) := by
      simp [validateJWT, jwtParse, keyfunc, halg, halgne, hreg,
        getSigningMethod, hkid, hkidne, hkey, hmismatch]
    refine ⟨hv, ?_⟩
    simp only [Authenticate, hne, if_false, hpre, hdec, htokne, hv]
    simp [hne, htokne]
  · intro hnotreg
    have hv : validateJWT σ start pemParse (.token header post) =
        (false, "", some "signing method (alg) is unavailable") := by
      simp [validateJWT, jwtParse, halg, getSigningMethod, hnotreg]
    refine ⟨hv, ?_⟩
    simp only [Authenticate, hne, if_false, hpre, hdec, htokne, hv]
    simp [hne, htokne]

/-- Witness for `Authenticate_alg_mismatch`: the claim's own scenario —
token header `{alg: "HS256", kid: "k1"}` against cached key `k1` with
`Alg = "RS256"` — for the registered regime, and the same token with the
unregistered lowercase spelling `hs256` for the early-rejection
regime. -/
theorem Authenticate_alg_mismatch_witness :
    (validateJWT demoSchedule 0 demoPem
        (.token [("alg", .str "HS256"), ("kid", .str "k1")] .valid) =
      (false, "value for 'alg' header is invalid", none) ∧
    Authenticate demoDecodeHS demoSchedule 0 demoPem (some ⟨"Bearer tok"⟩) =
      (false, "value for 'alg' header is invalid", none)) ∧
    (validateJWT demoSchedule 0 demoPem
        (.token [("alg", .str "hs256"), ("kid", .str "k1")] .valid) =
      (false, "", some "signing method (alg) is unavailable") ∧
    Authenticate (fun _ => .token [("alg", .str "hs256"), ("kid", .str "k1")] .valid)
        demoSchedule 0 demoPem (some ⟨"Bearer tok"⟩) =
      (false, "",
        some ("failed to validate jwt: " ++
          "signing method (alg) is unavailable"))) :=
  ⟨(Authenticate_alg_mismatch demoDecodeHS demoSchedule 0 demoPem
      [("alg", .str "HS256"), ("kid", .str "k1")] .valid "HS256" "k1" demoKeyRS
      "Bearer tok" (by decide) (by decide) (by decide) (by decide) (by decide)
      (by decide) (by decide) (by decide)).1 (by decide),
   (Authenticate_alg_mismatch
      (fun _ => .token [("alg", .str "hs256"), ("kid", .str "k1")] .valid)
      demoSchedule 0 demoPem
      [("alg", .str "hs256"), ("kid", .str "k1")] .valid "hs256" "k1" demoKeyRS
      "Bearer tok" (by decide) (by decide) (by decide) (by decide) (by decide)
      (by decide) (by decide) (by decide)).2 (by decide)⟩

/-- C5: evaluation at the failing inputs.  The kid half of the claim holds:
a token whose header carries a registered algorithm but no (string,
non-empty) `kid` is rejected with the safe reason and a nil error.  The
alg half does not: a token whose header lacks an `alg` value — absent,
non-string, or empty — is rejected by the jwt/v5 parser itself before the
keyfunc's own alg check can run, so `validateJWT` returns an empty reason
and a non-nil error instead of the reason
`"token header is missing an 'alg' value"` (whose switch branch is
unreachable). -/
theorem validateJWT_missing_header_cases :
    (validateJWT demoSchedule 0 demoPem
        (.token [("alg", .str "RS256")] .valid) =
      (false, "token header is missing a 'kid' value", none)) ∧
    (validateJWT demoSchedule 0 demoPem
        (.token [("alg", .str "RS256"), ("kid", .str "")] .valid) =
      (false, "token header is missing a 'kid' value", none)) ∧
    (validateJWT demoSchedule 0 demoPem
        (.token [("kid", .str "k1")] .valid) =
      (false, "", some "signing method (alg) is unspecified")) ∧
    (validateJWT demoSchedule 0 demoPem
        (.token [("alg", .nonstr), ("kid", .str "k1")] .valid) =
      (false, "", some "signing method (alg) is unspecified")) ∧
    (validateJWT demoSchedule 0 demoPem
        (.token [("alg", .str ""), ("kid", .str "k1")] .valid) =
      (false, "", some "signing method (alg) is unavailable")) := by
  refine ⟨by decide, by decide, by decide, by decide, by decide⟩

/-- C6: the three bearer-extraction rejections of `Authenticate`, each a
distinct non-error result produced before any JWT validation: absent
header, non-bearer scheme, bearer scheme with an empty/whitespace-only
token. -/
theorem Authenticate_bearer_extraction (decode : String → Decoded)
    (σ : Nat → KeyState) (start : Int) (pemParse : String → Option Nat)
    (h : String) :
    (h = "" → Authenticate decode σ start pemParse (some ⟨h⟩) =
      (false, "missing authorization header", none)) ∧
    (h ≠ "" → goHasPrefixOf (goToLower h) "bearer " = false →
      Authenticate decode σ start pemParse (some ⟨h⟩) =
      (false, "malformed authorization header", none)) ∧
    (goHasPrefixOf (goToLower h) "bearer " = true →
      goTrimSpace (goDrop h 7) = "" →
      Authenticate decode σ start pemParse (some ⟨h⟩) =
      (false, "missing bearer token", none)) := by
  refine ⟨?_, ?_, ?_⟩
  · rintro rfl
    simp [Authenticate]
  · intro hne hpre
    simp [Authenticate, hne, hpre]
  · intro hpre htok
    have hne : h ≠ "" := by
      rintro rfl
      exact absurd hpre (by decide)
    simp [Authenticate, hne, hpre, htok]

/-- Witness for `Authenticate_bearer_extraction`: the empty header, a
Basic-scheme header, and a bearer header whose token is all whitespace. -/
theorem Authenticate_bearer_extraction_witness :
    Authenticate demoDecodeHS demoSchedule 0 demoPem (some ⟨""⟩) =
      (false, "missing authorization header", none) ∧
    Authenticate demoDecodeHS demoSchedule 0 demoPem (some ⟨"Basic dXNlcg=="⟩) =
      (false, "malformed authorization header", none) ∧
    Authenticate demoDecodeHS demoSchedule 0 demoPem (some ⟨"Bearer   "⟩) =
      (false, "missing bearer token", none) :=
  ⟨(Authenticate_bearer_extraction demoDecodeHS demoSchedule 0 demoPem "").1 rfl,
   (Authenticate_bearer_extraction demoDecodeHS demoSchedule 0 demoPem
      "Basic dXNlcg==").2.1 (by decide) (by decide),
   (Authenticate_bearer_extraction demoDecodeHS demoSchedule 0 demoPem
      "Bearer   ").2.2 (by decide) (by decide)⟩

/-- C10: a nil request makes `Authenticate` return `(false, "", err)` and
`Authorize` return `(false, err)` with a non-nil error, while every
present-but-malformed Authorization header yields a non-empty reason and
a nil error. -/
theorem nil_request_errors {α : Type} (decode : String → Decoded)
    (σ : Nat → KeyState) (start : Int) (pemParse : String → Option Nat)
    (provider : HTTPRequest → α → Bool × Option String) (q : α) :
    Authenticate decode σ start pemParse none =
      (false, "", some "request is nil") ∧
    Authorize provider none q = (false, some "request is nil") ∧
    (∀ h : String, h ≠ "" →
      (goHasPrefixOf (goToLower h) "bearer " = false ∨
        goTrimSpace (goDrop h 7) = "") →
      ∃ reason, reason ≠ "" ∧
        Authenticate decode σ start pemParse (some ⟨h⟩) =
          (false, reason, none)) := by
  refine ⟨rfl, rfl, ?_⟩
  intro h hne hmal
  rcases hmal with hpre | htok
  · exact ⟨"malformed authorization header", by decide,
      (Authenticate_bearer_extraction decode σ start pemParse h).2.1 hne hpre⟩
  · cases hpre : goHasPrefixOf (goToLower h) "bearer " with
    | false =>
        exact ⟨"malformed authorization header", by decide,
          (Authenticate_bearer_extraction decode σ start pemParse h).2.1 hne hpre⟩
    | true =>
        exact ⟨"missing bearer token", by decide,
          (Authenticate_bearer_extraction decode σ start pemParse h).2.2 hpre htok⟩

/-- Witness for `nil_request_errors`: the nil request, and the header
`"Basic dXNlcg=="` as a malformed-but-present header. -/
theorem nil_request_errors_witness :
    Authenticate demoDecodeHS demoSchedule 0 demoPem none =
      (false, "", some "request is nil") ∧
    Authorize (fun _ (_ : String) => (true, none)) none "perm" =
      (false, some "request is nil") ∧
    ∃ reason, reason ≠ "" ∧
      Authenticate demoDecodeHS demoSchedule 0 demoPem
        (some ⟨"Basic dXNlcg=="⟩) = (false, reason, none) :=
  ⟨(nil_request_errors demoDecodeHS demoSchedule 0 demoPem
      (fun _ (_ : String) => (true, none)) "perm").1,
   (nil_request_errors demoDecodeHS demoSchedule 0 demoPem
      (fun _ (_ : String) => (true, none)) "perm").2.1,
   (nil_request_errors demoDecodeHS demoSchedule 0 demoPem
      (fun _ (_ : String) => (true, none)) "perm").2.2 "Basic dXNlcg=="
      (by decide) (.inl (by decide))⟩

/-!
## Lifecycle: `Start` (`pkg/auth/auth.go`) and `shutdown`
(`pkg/auth/internal.go`)

`Start` wraps its body in `sync.Once.Do` and always returns `a.errorChan`;
the body creates the two tickers and launches the one background goroutine,
which begins with one key refresh.  Sequential calls are modelled as a
state transition that records these observable effects as counters.

`shutdown` stops and nils the key ticker, then closes the error channel
behind a `select` that receives when the channel is ready (already closed,
or a sender pending on the unbuffered channel) and closes it only in the
`default` case.  An unbuffered Go channel is modelled as open with the
list of values currently offered by blocked senders, or closed; closing a
closed channel is the panic the guard exists to prevent.
-/

/-- The `Start`-relevant state of an `Auth` value: the `sync.Once` flag,
the identity of the error channel allocated by `New`, and counters for the
body's observable effects. -/
structure StartState where
  started : Bool
  errorChanId : Nat
  tickersCreated : Nat
  loopsLaunched : Nat
  initialKeyRefreshes : Nat
deriving Repr, DecidableEq

/-- Function `Start` of `pkg/auth/auth.go`: runs the body only when the
`sync.Once` has not fired, and returns the error channel either way. -/
def Start (s : StartState) : StartState × Nat :=
  if s.started then (s, s.errorChanId)
  else
    ({ s with
        started := true
        tickersCreated := s.tickersCreated + 2
        loopsLaunched := s.loopsLaunched + 1
        initialKeyRefreshes := s.initialKeyRefreshes + 1 },
      s.errorChanId)

/-- C7: `Start` is idempotent.  A second (and hence any later) call leaves
the state of the first call unchanged and returns the same error channel,
and the first call on a not-yet-started instance launches exactly one
background loop, performs exactly one initial key refresh, and creates the
two tickers exactly once. -/
theorem Start_idempotent (s : StartState) :
    Start (Start s).1 = ((Start s).1, s.errorChanId) ∧
    (Start (Start s).1).2 = (Start s).2 ∧
    (s.started = false →
      (Start s).1.loopsLaunched = s.loopsLaunched + 1 ∧
      (Start s).1.initialKeyRefreshes = s.initialKeyRefreshes + 1 ∧
      (Start s).1.tickersCreated = s.tickersCreated + 2) := by
  by_cases h : s.started
  · refine ⟨?_, ?_, ?_⟩
    · simp [Start, h]
    · simp [Start, h]
    · intro hfalse; rw [h] at hfalse; exact absurd hfalse (by decide)
  · rw [Bool.not_eq_true] at h
    refine ⟨?_, ?_, ?_⟩
    · simp [Start, h]
    · simp [Start, h]
    · intro _; simp [Start, h]

/-- Witness for `Start_idempotent`: a freshly constructed instance. -/
theorem Start_idempotent_witness :
    Start (Start ⟨false, 7, 0, 0, 0⟩).1 = ((Start ⟨false, 7, 0, 0, 0⟩).1, 7) ∧
    (Start ⟨false, 7, 0, 0, 0⟩).1.loopsLaunched = 1 ∧
    (Start ⟨false, 7, 0, 0, 0⟩).1.initialKeyRefreshes = 1 :=
  ⟨(Start_idempotent ⟨false, 7, 0, 0, 0⟩).1,
   ((Start_idempotent ⟨false, 7, 0, 0, 0⟩).2.2 rfl).1,
   ((Start_idempotent ⟨false, 7, 0, 0, 0⟩).2.2 rfl).2.1⟩

/-- An unbuffered Go channel as `shutdown` observes it: open with the
values currently offered by blocked senders (in arrival order), or
closed. -/
inductive ChanState where
  | opened (pending : List String)
  | closed
deriving Repr, DecidableEq

/-- The `shutdown`-relevant state of an `Auth` value, with counters for
ticker stops and channel closes and a flag recording a close-of-closed
panic. -/
structure ShutdownState where
  refreshKeysTicker : Option Unit
  errorChan : ChanState
  tickerStops : Nat
  chanCloses : Nat
  panicked : Bool
deriving Repr, DecidableEq

/-- Statement `close(a.errorChan)`: closing an open channel; closing a closed
channel panics. -/
def closeChan (s : ShutdownState) : ShutdownState :=
  match s.errorChan with
  | .closed => { s with panicked := true }
  | .opened _ => { s with errorChan := .closed, chanCloses := s.chanCloses + 1 }

/-- Function `shutdown` of `pkg/auth/internal.go`: stop-and-nil the ticker if
present, then the `select`: a receive from the channel is ready when it is
closed (yields the zero value) or when a sender is blocked on it (yields
that value); only when neither is ready does the `default` branch close
the channel. -/
def shutdown (s : ShutdownState) : ShutdownState :=
  let s1 :=
    match s.refreshKeysTicker with
    | some _ => { s with refreshKeysTicker := none,
                         tickerStops := s.tickerStops + 1 }
    | none => s
  match s1.errorChan with
  | .closed => s1
  | .opened (_ :: rest) => { s1 with errorChan := .opened rest }
  | .opened [] => closeChan s1

/-- C8: `shutdown` is double-call safe.  It never panics from any state;
from the running state (ticker live, error channel open with no pending
sender) two sequential calls stop the ticker exactly once and close the
error channel exactly once; and when the channel is already closed before
the first call, neither call closes (or double-closes) it. -/
theorem shutdown_double_call_safe (s : ShutdownState) :
    ((shutdown (shutdown s)).panicked = s.panicked) ∧
    (s.refreshKeysTicker = some () → s.errorChan = .opened [] →
      (shutdown (shutdown s)).tickerStops = s.tickerStops + 1 ∧
      (shutdown (shutdown s)).chanCloses = s.chanCloses + 1 ∧
      (shutdown (shutdown s)).errorChan = .closed ∧
      (shutdown (shutdown s)).refreshKeysTicker = none) ∧
    (s.errorChan = .closed →
      (shutdown (shutdown s)).chanCloses = s.chanCloses) := by
  refine ⟨?_, ?_, ?_⟩
  · rcases s with ⟨t, c, ts, cc, p⟩
    rcases t with _ | _ <;> rcases c with (_ | ⟨e, rest⟩) | _ <;>
      simp [shutdown, closeChan] <;>
      rcases rest with _ | ⟨e', rest'⟩ <;> simp [shutdown, closeChan]
  · intro ht hc
    rcases s with ⟨t, c, ts, cc, p⟩
    simp only at ht hc
    subst ht; subst hc
    simp [shutdown, closeChan]
  · intro hc
    rcases s with ⟨t, c, ts, cc, p⟩
    simp only at hc
    subst hc
    rcases t with _ | _ <;> simp [shutdown, closeChan]

/-- Witness for `shutdown_double_call_safe`: the running state and the
already-closed state. -/
theorem shutdown_double_call_safe_witness :
    (shutdown (shutdown ⟨some (), .opened [], 0, 0, false⟩)).panicked = false ∧
    (shutdown (shutdown ⟨some (), .opened [], 0, 0, false⟩)).tickerStops = 1 ∧
    (shutdown (shutdown ⟨some (), .opened [], 0, 0, false⟩)).chanCloses = 1 ∧
    (shutdown (shutdown ⟨none, .closed, 1, 1, false⟩)).chanCloses = 1 :=
  ⟨(shutdown_double_call_safe ⟨some (), .opened [], 0, 0, false⟩).1,
   ((shutdown_double_call_safe ⟨some (), .opened [], 0, 0, false⟩).2.1 rfl rfl).1,
   ((shutdown_double_call_safe ⟨some (), .opened [], 0, 0, false⟩).2.1 rfl rfl).2.1,
   (shutdown_double_call_safe ⟨none, .closed, 1, 1, false⟩).2.2 rfl⟩

/-!
## Requirement aggregation (`AddAuthenticatedEndpoint`, `lifecycle.go` of
package `service`) and `Authorize` delegation
-/

/-- The `AuthRequirements` struct of the auth package (defined in the
package README and used by `AddAuthenticatedEndpoint`): any-of-roles and
all-of-permissions lists. -/
structure AuthRequirements where
  AnyRole : List String
  AllPermissions : List String
deriving Repr, DecidableEq

/-- The aggregation loop of `AddAuthenticatedEndpoint` (and
`AddServiceEndpoint`): starting from the zero value, append every
requirement's `AnyRole` and `AllPermissions` slices in argument order. -/
def combineAuthRequirements (authRequirements : List AuthRequirements) :
    AuthRequirements :=
  authRequirements.foldl
    (fun requirements r =>
      ⟨requirements.AnyRole ++ r.AnyRole,
       requirements.AllPermissions ++ r.AllPermissions⟩)
    ⟨[], []⟩

theorem combineAuthRequirements_foldl (acc : AuthRequirements)
    (l : List AuthRequirements) :
    l.foldl (fun requirements r =>
      (⟨requirements.AnyRole ++ r.AnyRole,
        requirements.AllPermissions ++ r.AllPermissions⟩ : AuthRequirements))
      acc =
    ⟨acc.AnyRole ++ (l.map AuthRequirements.AnyRole).flatten,
     acc.AllPermissions ++ (l.map AuthRequirements.AllPermissions).flatten⟩ := by
  induction l generalizing acc with
  | nil => simp
  | cons x xs ih => simp [ih, List.append_assoc]

/-- C9: the requirement forwarded to the provider is the union of all
supplied requirements — its `AnyRole` is the concatenation of every
argument's roles and its `AllPermissions` the concatenation of every
argument's permissions (so membership is exactly "occurs in some supplied
requirement") — and `Authorize` on a non-nil request is pure delegation of
that single combined requirement to the provider's `AuthorizeRequest`. -/
theorem combined_requirements_union
    (provider : HTTPRequest → AuthRequirements → Bool × Option String)
    (req : HTTPRequest) (authRequirements : List AuthRequirements) :
    (combineAuthRequirements authRequirements).AnyRole =
      (authRequirements.map AuthRequirements.AnyRole).flatten ∧
    (combineAuthRequirements authRequirements).AllPermissions =
      (authRequirements.map AuthRequirements.AllPermissions).flatten ∧
    (∀ x : String,
      x ∈ (combineAuthRequirements authRequirements).AnyRole ↔
        ∃ r ∈ authRequirements, x ∈ r.AnyRole) ∧
    (∀ x : String,
      x ∈ (combineAuthRequirements authRequirements).AllPermissions ↔
        ∃ r ∈ authRequirements, x ∈ r.AllPermissions) ∧
    Authorize provider (some req) (combineAuthRequirements authRequirements) =
      provider req (combineAuthRequirements authRequirements) := by
  have hfold := combineAuthRequirements_foldl ⟨[], []⟩ authRequirements
  refine ⟨?_, ?_, ?_, ?_, rfl⟩
  · rw [combineAuthRequirements, hfold]; simp
  · rw [combineAuthRequirements, hfold]; simp
  · intro x
    rw [combineAuthRequirements, hfold]
    simp [List.mem_flatten]
  · intro x
    rw [combineAuthRequirements, hfold]
    simp [List.mem_flatten]

/-- Witness for `combined_requirements_union`: two requirement values
whose roles and permissions are concatenated for the provider. -/
theorem combined_requirements_union_witness :
    (combineAuthRequirements [⟨["admin"], ["read"]⟩, ⟨["editor"], ["write"]⟩]).AnyRole =
      ["admin", "editor"] ∧
    (combineAuthRequirements [⟨["admin"], ["read"]⟩, ⟨["editor"], ["write"]⟩]).AllPermissions =
      ["read", "write"] ∧
    Authorize (fun _ q => (decide (q.AnyRole = ["admin", "editor"]), none))
        (some ⟨"Bearer tok"⟩)
        (combineAuthRequirements [⟨["admin"], ["read"]⟩, ⟨["editor"], ["write"]⟩]) =
      (true, none) := by
  have h := combined_requirements_union
    (fun _ q => (decide (q.AnyRole = ["admin", "editor"]), none)) ⟨"Bearer tok"⟩
    [⟨["admin"], ["read"]⟩, ⟨["editor"], ["write"]⟩]
  refine ⟨?_, ?_, ?_⟩
  · rw [h.1]; decide
  · rw [h.2.1]; decide
  · rw [h.2.2.2.2, h.1]
    decide

/-!
## Refresh coalescing (`getAccessTokenWithTimeout`, `pkg/auth/auth.go`)

`getAccessTokenWithTimeout` first tries the cached token
(`getAccessToken`; implementation not under `src/`, modelled from the
spec), and on a miss joins the singleflight group `tokenRefresher` under
the fixed key `"getAccessTokenWithTimeout"`, whose function body is
`refreshAccessToken` (implementation not under `src/`; per the spec it
performs exactly one call to the provider's `RefreshAccessToken` per
execution).  The `golang.org/x/sync/singleflight` contract — concurrent
`Do` calls with the same key share one execution of the function and all
receive its result — is embedded as a transition system: `SFState` holds
the in-flight call (with the ids of the callers waiting on it), the
number of provider invocations, and the outcomes already delivered;
events are a caller arriving at `Do`, a caller's `time.After` timeout
firing first, and the single function execution completing.  A caller
whose timeout fires simply stops waiting (its goroutine stays joined to
the flight and the result is discarded); the flight itself is untouched.
-/

/-- The `AccessToken` struct of the auth package's structs file. -/
structure AccessToken where
  Token : String
  Expires : Int
deriving Repr, DecidableEq

/-- Modelled from the spec: `getAccessToken` (implementation not under
`src/`) is the non-blocking read of the Access Token Cache — it returns
the cached token with `true` exactly when one is present and not yet
expired. -/
def getAccessToken (cached : Option AccessToken) (now : Int) :
    Option AccessToken × Bool :=
  match cached with
  | some t => if t.Expires > now then (some t, true) else (none, false)
  | none => (none, false)

/-- The shared result of the single in-flight refresh: the new token, or
the error of the one provider call. -/
inductive TokenResult where
  | ok (t : AccessToken)
  | err (e : String)
deriving Repr, DecidableEq

/-- What one caller of `getAccessTokenWithTimeout` ends up with on the
slow path: the shared result, or its own timeout. -/
inductive CallerOutcome where
  | result (r : TokenResult)
  | timedOut
deriving Repr, DecidableEq

/-- The `select` at the end of `getAccessTokenWithTimeout`: result channel
first, error channel second, `time.After` third with the dedicated
timeout error. -/
def selectOutcome : CallerOutcome → Option AccessToken × Option String
  | .result (.ok t) => (some t, none)
  | .result (.err e) => (none, some e)
  | .timedOut => (none, some "timeout waiting for token refresh")

/-- The state of one refresh episode of the singleflight group
`tokenRefresher`: the in-flight call with its waiting caller ids (if
any), the number of `RefreshAccessToken` provider invocations so far, and
the outcomes already delivered to callers. -/
structure SFState where
  flight : Option (List Nat)
  providerCalls : Nat
  outcomes : List (Nat × CallerOutcome)
deriving Repr, DecidableEq

/-- An event of the episode: caller `cid` reaches `tokenRefresher.Do`
(with no valid token cached); caller `cid`'s timeout fires before the
shared result arrives; the single function execution completes with `r`
and delivers it to everyone still waiting. -/
inductive SFEvent where
  | arrive (cid : Nat)
  | timeout (cid : Nat)
  | complete (r : TokenResult)
deriving Repr, DecidableEq

/-- One step of the episode.  `arrive` creates the flight — invoking the
provider — when none is in flight, and otherwise joins it; `timeout`
removes the caller from the waiters and records its dedicated timeout
outcome, leaving the flight and the provider-call count untouched;
`complete` delivers the shared result to every remaining waiter and
retires the flight. -/
def SFStep (s : SFState) : SFEvent → Option SFState
  | .arrive cid =>
      match s.flight with
      | none => some { s with flight := some [cid],
                              providerCalls := s.providerCalls + 1 }
      | some ws => some { s with flight := some (ws ++ [cid]) }
  | .timeout cid =>
      match s.flight with
      | none => none
      | some ws =>
          if cid ∈ ws then
            some { s with flight := some (ws.erase cid),
                          outcomes := s.outcomes ++ [(cid, .timedOut)] }
          else none
  | .complete r =>
      match s.flight with
      | none => none
      | some ws =>
          some { flight := none, providerCalls := s.providerCalls,
                 outcomes := s.outcomes ++ ws.map (fun c => (c, .result r)) }

/-- A run of the episode: the events in order, failing on an impossible
step. -/
def SFRun : SFState → List SFEvent → Option SFState
  | s, [] => some s
  | s, e :: es =>
      match SFStep s e with
      | some s' => SFRun s' es
      | none => none

theorem SFRun_append (s : SFState) (l1 l2 : List SFEvent) :
    SFRun s (l1 ++ l2) =
      match SFRun s l1 with
      | some s1 => SFRun s1 l2
      | none => none := by
  induction l1 generalizing s with
  | nil => simp [SFRun]
  | cons e es ih =>
      rcases h : SFStep s e with _ | s1 <;> simp [SFRun, h, ih]

/-- Arrivals into an existing flight join it without touching the
provider-call count. -/
theorem SFRun_arrivals_join (cids : List Nat) (ws : List Nat) (pc : Nat)
    (outs : List (Nat × CallerOutcome)) :
    SFRun ⟨some ws, pc, outs⟩ (cids.map SFEvent.arrive) =
      some ⟨some (ws ++ cids), pc, outs⟩ := by
  induction cids generalizing ws with
  | nil => simp [SFRun]
  | cons c cs ih =>
      rw [List.map_cons, SFRun]
      simp only [SFStep]
      rw [ih (ws ++ [c])]
      simp

/-- The state after all callers of the episode have arrived at `Do` while
nothing was in flight: one provider call, everyone waiting. -/
theorem SFRun_arrivals (c : Nat) (cs : List Nat) :
    SFRun ⟨none, 0, []⟩ ((c :: cs).map SFEvent.arrive) =
      some ⟨some (c :: cs), 1, []⟩ := by
  rw [List.map_cons, SFRun]
  simp only [SFStep]
  rw [SFRun_arrivals_join cs [c] 1 []]
  simp

/-- The invariant of an episode after its arrivals: one provider call so
far, and either the flight is still up and every outcome so far is a
timeout, or the flight completed and every outcome is a timeout or the
one shared result. -/
def SFInv (s : SFState) : Prop :=
  s.providerCalls = 1 ∧
  ((s.flight ≠ none ∧ ∀ p ∈ s.outcomes, p.2 = CallerOutcome.timedOut) ∨
   (s.flight = none ∧ ∃ r, ∀ p ∈ s.outcomes,
      p.2 = CallerOutcome.timedOut ∨ p.2 = CallerOutcome.result r))

theorem SFStep_preserves_inv (s s' : SFState) (e : SFEvent)
    (hnoarr : ∀ c, e ≠ SFEvent.arrive c)
    (hstep : SFStep s e = some s') (hinv : SFInv s) : SFInv s' := by
  rcases hinv with ⟨hpc, hcase⟩
  cases e with
  | arrive c => exact absurd rfl (hnoarr c)
  | timeout c =>
      rcases hws : s.flight with _ | ws
      · simp only [SFStep, hws] at hstep
        exact Option.noConfusion hstep
      · simp only [SFStep, hws] at hstep
        by_cases hmem : c ∈ ws
        · rw [if_pos hmem] at hstep
          injection hstep with hstep
          subst hstep
          rcases hcase with ⟨_, hto⟩ | ⟨hnone, _⟩
          · refine ⟨hpc, .inl ⟨by simp, ?_⟩⟩
            intro p hp
            rcases List.mem_append.mp hp with hL | hR
            · exact hto p hL
            · simp at hR; rw [hR]
          · rw [hws] at hnone; exact absurd hnone (by simp)
        · rw [if_neg hmem] at hstep; exact absurd hstep (by simp)
  | complete r =>
      rcases hws : s.flight with _ | ws
      · simp only [SFStep, hws] at hstep
        exact Option.noConfusion hstep
      · simp only [SFStep, hws] at hstep
        injection hstep with hstep
        subst hstep
        rcases hcase with ⟨_, hto⟩ | ⟨hnone, _⟩
        · refine ⟨hpc, .inr ⟨rfl, r, ?_⟩⟩
          intro p hp
          rcases List.mem_append.mp hp with hL | hR
          · exact .inl (hto p hL)
          · rcases List.mem_map.mp hR with ⟨cid, _, hcp⟩
            exact .inr (by rw [← hcp])
        · rw [hws] at hnone; exact absurd hnone (by simp)

theorem SFRun_preserves_inv (l : List SFEvent) (s s' : SFState)
    (hnoarr : ∀ e ∈ l, ∀ c, e ≠ SFEvent.arrive c)
    (hrun : SFRun s l = some s') (hinv : SFInv s) : SFInv s' := by
  induction l generalizing s with
  | nil => rw [SFRun] at hrun; injection hrun with h; rwa [← h]
  | cons e es ih =>
      rw [SFRun] at hrun
      rcases hstep : SFStep s e with _ | s1
      · rw [hstep] at hrun; exact absurd hrun (by simp)
      · rw [hstep] at hrun
        exact ih s1 (fun e' he' => hnoarr e' (List.mem_cons_of_mem e he'))
          hrun (SFStep_preserves_inv s s1 e
            (hnoarr e (List.mem_cons_self e es)) hstep hinv)

/-- C4: refresh coalescing.  For any episode in which `N ≥ 2` callers
reach `tokenRefresher.Do` while no refresh is in flight and no valid token
is cached (the `getAccessToken` fast path misses on an empty cache and on
an expired token), and whatever timeouts/completion follow: the provider's
`RefreshAccessToken` is invoked exactly once; every caller's outcome is
the one shared result of that single execution or its own timeout; a
timed-out caller gets the dedicated error
`"timeout waiting for token refresh"` from its `select`, and its timeout
step never cancels the in-flight refresh (the flight and the
provider-call count are unchanged by it). -/
theorem getAccessTokenWithTimeout_coalescing (cids : List Nat)
    (post : List SFEvent) (s' : SFState)
    (hN : 2 ≤ cids.length)
    (hpost : ∀ e ∈ post, ∀ c, e ≠ SFEvent.arrive c)
    (hrun : SFRun ⟨none, 0, []⟩ (cids.map SFEvent.arrive ++ post) = some s') :
    s'.providerCalls = 1 ∧
    (∃ r, ∀ p ∈ s'.outcomes,
      p.2 = CallerOutcome.timedOut ∨ p.2 = CallerOutcome.result r) ∧
    selectOutcome CallerOutcome.timedOut =
      (none, some "timeout waiting for token refresh") ∧
    (∀ (t : SFState) (c : Nat) (t' : SFState),
      SFStep t (SFEvent.timeout c) = some t' →
      t'.providerCalls = t.providerCalls ∧
      ∀ ws, t.flight = some ws → t'.flight = some (ws.erase c)) ∧
    (getAccessToken none 0, getAccessToken (some ⟨"stale", -5⟩) 0) =
      ((none, false), (none, false)) := by
  rcases cids with _ | ⟨c, cs⟩
  · exact absurd hN (by simp)
  have hinv : SFInv s' := by
    rw [SFRun_append] at hrun
    rw [SFRun_arrivals c cs] at hrun
    exact SFRun_preserves_inv post ⟨some (c :: cs), 1, []⟩ s' hpost hrun
      ⟨rfl, .inl ⟨by simp, by simp⟩⟩
  rcases hinv with ⟨hpc, hcase⟩
  refine ⟨hpc, ?_, rfl, ?_, rfl⟩
  · rcases hcase with ⟨_, hto⟩ | ⟨_, r, hr⟩
    · exact ⟨TokenResult.err "", fun p hp => .inl (hto p hp)⟩
    · exact ⟨r, hr⟩
  · intro t c' t' hstep
    rcases hws : t.flight with _ | ws
    · simp only [SFStep, hws] at hstep
      exact Option.noConfusion hstep
    · simp only [SFStep, hws] at hstep
      by_cases hmem : c' ∈ ws
      · rw [if_pos hmem] at hstep
        injection hstep with hstep
        subst hstep
        refine ⟨rfl, fun ws' hws' => ?_⟩
        injection hws' with h
        rw [← h]
      · rw [if_neg hmem] at hstep; exact absurd hstep (by simp)

/-- Witness for `getAccessTokenWithTimeout_coalescing`: callers 1 and 2
join one flight; caller 2 times out, then the refresh completes and caller
1 receives the token — one provider call in total. -/
theorem getAccessTokenWithTimeout_coalescing_witness :
    SFRun ⟨none, 0, []⟩
        (([1, 2].map SFEvent.arrive) ++
          [SFEvent.timeout 2, SFEvent.complete (.ok ⟨"tok", 100⟩)]) =
      some ⟨none, 1,
        [(2, CallerOutcome.timedOut),
         (1, CallerOutcome.result (.ok ⟨"tok", 100⟩))]⟩ ∧
    (1 : Nat) = 1 ∧
    ∃ r, ∀ p ∈ [(2, CallerOutcome.timedOut),
         (1, CallerOutcome.result (TokenResult.ok ⟨"tok", 100⟩))],
      Prod.snd p = CallerOutcome.timedOut ∨ Prod.snd p = CallerOutcome.result r := by
  have hrun : SFRun ⟨none, 0, []⟩
      (([1, 2].map SFEvent.arrive) ++
        [SFEvent.timeout 2, SFEvent.complete (.ok ⟨"tok", 100⟩)]) =
      some ⟨none, 1,
        [(2, CallerOutcome.timedOut),
         (1, CallerOutcome.result (.ok ⟨"tok", 100⟩))]⟩ := by decide
  refine ⟨hrun, ?_, ?_⟩
  · exact (getAccessTokenWithTimeout_coalescing [1, 2]
      [SFEvent.timeout 2, SFEvent.complete (.ok ⟨"tok", 100⟩)] _
      (by decide)
      (by intro e he c; fin_cases he <;> simp)
      hrun).1 ▸ rfl
  · exact (getAccessTokenWithTimeout_coalescing [1, 2]
      [SFEvent.timeout 2, SFEvent.complete (.ok ⟨"tok", 100⟩)] _
      (by decide)
      (by intro e he c; fin_cases he <;> simp)
      hrun).2.1

end ServiceAuth
